import Mathlib

/-!
Verification of the lending decision engine of the ml-demo repository.

The repository ships the backend decision engine (expression evaluator,
rule evaluation unit, profile scoring engine, cross-profile aggregator,
batch runner) behind the /api/rules/decide endpoint; the frontend under
ui/ holds the data model declarations (ui/src/types/loanModels.ts), the
batch-load validation (ui/src/components/ApplicationsPage.tsx) and the
result statistics (DecisionResultsViewer).  The engine components are
modelled from the specification; the frontend functions are embedded
from their TypeScript source.

Numeric values (scores, weights, thresholds, numeric attributes) are
embedded as rational numbers: the source works with IEEE-754 doubles,
and every quantity the verified properties touch is an exact sum or
comparison of input values.
-/

namespace Loan

/-- From loanModels.ts: type DecisionOutcome = "approve" | "decline". -/
inductive DecisionOutcome
| approve
| decline
deriving DecidableEq

/-- From loanModels.ts: type DecisionSource = "auto" | "manual". -/
inductive DecisionSource
| auto
| manual
deriving DecidableEq

/-- From loanModels.ts: type ProfileDecision = "approve" | "decline" | "refer". -/
inductive ProfileDecision
| approve
| decline
| refer
deriving DecidableEq

/-- A decision outcome viewed as a three-state profile decision. -/
def decisionOfOutcome : DecisionOutcome → ProfileDecision
| DecisionOutcome.approve => ProfileDecision.approve
| DecisionOutcome.decline => ProfileDecision.decline

/-- From loanModels.ts: interface DeclineReason (code, description). -/
structure DeclineReason where
  code : String
  description : String
deriving DecidableEq

/-- A value an Application attribute can hold: a number, a string, a
boolean, or null (also covering an absent optional value). -/
inductive AttrValue
| num (q : Rat)
| str (s : String)
| bool (b : Bool)
| null
deriving DecidableEq

/-- An Application attribute set: attribute name to value. -/
abbrev AttrSet := List (String × AttrValue)

/-- Modelled from the spec: the engine-side Application (loanModels.ts
interface Application).  The roughly 35 underwriting attributes that rule
conditions reference by name are kept as the attribute set; the fields
the aggregator reads (identity, recorded decision, manual reasons) are
explicit. -/
structure Application where
  application_id : String
  attrs : AttrSet
  decision_source : DecisionSource
  final_decision : Option DecisionOutcome
  manual_decline_reasons : List DeclineReason
deriving DecidableEq

/-- Comparison operators of the condition grammar. -/
inductive CmpOp
| lt
| le
| gt
| ge
| eq
| ne
deriving DecidableEq

/-- An operand of a comparison: an attribute reference or a literal. -/
inductive Operand
| field (name : String)
| numLit (q : Rat)
| strLit (s : String)
| boolLit (b : Bool)
deriving DecidableEq

/-- Modelled from the spec: a rule condition, a boolean expression over
Application attribute names with comparison operators, and/or/not, and
literals (spec section 4.1).  Expressions outside this grammar are
rejected at parse time and never reach the evaluator. -/
inductive CondExpr
| cmp (op : CmpOp) (lhs rhs : Operand)
| and (a b : CondExpr)
| or (a b : CondExpr)
| not (a : CondExpr)
deriving DecidableEq

/-- The tri-state outcome of evaluating a condition: true, false, or
evaluation-fault. -/
inductive Tri
| tt
| ff
| fault
deriving DecidableEq

/-- Resolve an attribute reference by name against the attribute set. -/
def lookupAttr (app : AttrSet) (name : String) : Option AttrValue :=
  List.lookup name app

/-- Evaluate an operand; an unknown field name yields none (fault). -/
def evalOperand (app : AttrSet) : Operand → Option AttrValue
| Operand.field n => lookupAttr app n
| Operand.numLit q => some (AttrValue.num q)
| Operand.strLit s => some (AttrValue.str s)
| Operand.boolLit b => some (AttrValue.bool b)

/-- Modelled from the spec: comparison semantics (spec section 4.1).
Numeric comparisons need two numbers; booleans and strings compare by
equality only; a null value, a type mismatch, or an ordering operator on
a non-numeric value is an evaluation fault. -/
def evalCmp (op : CmpOp) (a b : AttrValue) : Tri :=
  match op, a, b with
  | CmpOp.lt, AttrValue.num x, AttrValue.num y => if x < y then Tri.tt else Tri.ff
  | CmpOp.le, AttrValue.num x, AttrValue.num y => if x ≤ y then Tri.tt else Tri.ff
  | CmpOp.gt, AttrValue.num x, AttrValue.num y => if y < x then Tri.tt else Tri.ff
  | CmpOp.ge, AttrValue.num x, AttrValue.num y => if y ≤ x then Tri.tt else Tri.ff
  | CmpOp.eq, AttrValue.num x, AttrValue.num y => if x = y then Tri.tt else Tri.ff
  | CmpOp.ne, AttrValue.num x, AttrValue.num y => if x = y then Tri.ff else Tri.tt
  | CmpOp.eq, AttrValue.bool x, AttrValue.bool y => if x = y then Tri.tt else Tri.ff
  | CmpOp.ne, AttrValue.bool x, AttrValue.bool y => if x = y then Tri.ff else Tri.tt
  | CmpOp.eq, AttrValue.str x, AttrValue.str y => if x = y then Tri.tt else Tri.ff
  | CmpOp.ne, AttrValue.str x, AttrValue.str y => if x = y then Tri.ff else Tri.tt
  | _, _, _ => Tri.fault

/-- Modelled from the spec: the Expression Evaluator (spec section 4.1).
A fault anywhere in the expression makes the whole evaluation a fault,
so a condition that cannot be evaluated never fires. -/
def evalCond (app : AttrSet) : CondExpr → Tri
| CondExpr.cmp op l r =>
    match evalOperand app l, evalOperand app r with
    | some a, some b => evalCmp op a b
    | _, _ => Tri.fault
| CondExpr.and a b =>
    match evalCond app a, evalCond app b with
    | Tri.fault, _ => Tri.fault
    | _, Tri.fault => Tri.fault
    | Tri.tt, Tri.tt => Tri.tt
    | _, _ => Tri.ff
| CondExpr.or a b =>
    match evalCond app a, evalCond app b with
    | Tri.fault, _ => Tri.fault
    | _, Tri.fault => Tri.fault
    | Tri.ff, Tri.ff => Tri.ff
    | _, _ => Tri.tt
| CondExpr.not a =>
    match evalCond app a with
    | Tri.fault => Tri.fault
    | Tri.tt => Tri.ff
    | Tri.ff => Tri.tt

/-- An operand references the given attribute name. -/
def Operand.usesField (n : String) : Operand → Bool
| Operand.field m => decide (m = n)
| _ => false

/-- A condition references the given attribute name somewhere. -/
def CondExpr.usesField (n : String) : CondExpr → Bool
| CondExpr.cmp _ l r => Operand.usesField n l || Operand.usesField n r
| CondExpr.and a b => CondExpr.usesField n a || CondExpr.usesField n b
| CondExpr.or a b => CondExpr.usesField n a || CondExpr.usesField n b
| CondExpr.not a => CondExpr.usesField n a

/-- From loanModels.ts: interface RuleCandidate.  Mining provenance
fields (support_count, confidence, lift) are read-only context the
evaluator never uses; the condition is the parsed form of the
expression. -/
structure RuleCandidate where
  rule_instance_id : String
  rule_type_id : String
  name : String
  condition : CondExpr
  target_decision_hint : Option DecisionOutcome
  suggested_base_score : Rat
  suggested_weight : Rat
  suggested_hard_decline : Bool
  support_count : Nat
  confidence : Rat
  aligned_decline_reason_codes : List String
deriving DecidableEq

/-- From loanModels.ts: interface ProfileRuleConfig. -/
structure ProfileRuleConfig where
  rule : RuleCandidate
  weight_override : Rat
  hard_decline : Bool
  active : Bool
deriving DecidableEq

/-- From loanModels.ts: interface DecisionProfile. -/
structure DecisionProfile where
  id : String
  name : String
  approval_threshold : Rat
  rules : List ProfileRuleConfig
deriving DecidableEq

/-- From loanModels.ts: interface RuleEvaluation. -/
structure RuleEvaluation where
  rule_id : String
  fired : Bool
  rule_score : Rat
  decline_reason_codes : List String
deriving DecidableEq

/-- From loanModels.ts: interface ProfileDecisionResult. -/
structure ProfileDecisionResult where
  profile_id : String
  profile_name : String
  total_score : Rat
  decision : ProfileDecision
  hard_decline_triggered : Bool
  rule_evaluations : List RuleEvaluation
  decline_reason_codes : List String
deriving DecidableEq

/-- From loanModels.ts: interface ApplicationDecisionResult. -/
structure ApplicationDecisionResult where
  application_id : String
  manual_decision_source : Option DecisionSource
  manual_final_decision : Option DecisionOutcome
  manual_decline_reasons : List DeclineReason
  profile_results : List ProfileDecisionResult
  final_system_decision : ProfileDecision
  needs_manual_review : Bool
  aggregated_decline_reason_codes : List String
deriving DecidableEq

/-- Modelled from the spec: the Rule Evaluation Unit (spec section 4.2).
A condition that evaluates to true fires the rule, scoring the profile
level weight_override; decline reason codes attach when the rule is
decline-aligned or hard-decline.  A false or faulted condition yields an
inert evaluation: not fired, score zero, no codes. -/
def evalRule (cfg : ProfileRuleConfig) (app : AttrSet) : RuleEvaluation :=
  match evalCond app cfg.rule.condition with
  | Tri.tt =>
      { rule_id := cfg.rule.rule_instance_id
        fired := true
        rule_score := cfg.weight_override
        decline_reason_codes :=
          if cfg.rule.target_decision_hint = some DecisionOutcome.decline ∨ cfg.hard_decline then
            cfg.rule.aligned_decline_reason_codes
          else [] }
  | _ =>
      { rule_id := cfg.rule.rule_instance_id
        fired := false
        rule_score := 0
        decline_reason_codes := [] }

/-- Modelled from the spec: the Profile Scoring Engine (spec section
4.3).  Inactive rules are filtered out before evaluation; an empty
active rule set refers; a fired hard-decline rule vetoes to decline;
otherwise the summed score classifies against the approval threshold
with an inclusive boundary. -/
def scoreProfile (p : DecisionProfile) (app : AttrSet) : ProfileDecisionResult :=
  let active := p.rules.filter (fun cfg => cfg.active)
  let evals := active.map (fun cfg => evalRule cfg app)
  let hd := active.any (fun cfg => (evalRule cfg app).fired && cfg.hard_decline)
  let total := (evals.map (fun ev => ev.rule_score)).sum
  let codes := ((evals.map (fun ev => ev.decline_reason_codes)).flatten).eraseDups
  { profile_id := p.id
    profile_name := p.name
    total_score := total
    decision :=
      if active.isEmpty then ProfileDecision.refer
      else if hd then ProfileDecision.decline
      else if p.approval_threshold ≤ total then ProfileDecision.approve
      else ProfileDecision.refer
    hard_decline_triggered := hd
    rule_evaluations := evals
    decline_reason_codes := codes }

/-- Modelled from the spec: the recorded manual decision of an
application, if any — the recorded final_decision when the
decision_source is manual (spec sections 3 and 4.4). -/
def manualDecisionOf (a : Application) : Option DecisionOutcome :=
  match a.decision_source with
  | DecisionSource.manual => a.final_decision
  | DecisionSource.auto => none

/-- Modelled from the spec: the system-wide decision of the
Cross-Profile Aggregator (spec section 4.4) — decline if any profile
result declines, else approve if all approve, else refer. -/
def finalSystemDecision (rs : List ProfileDecisionResult) : ProfileDecision :=
  if rs.any (fun r => decide (r.decision = ProfileDecision.decline)) then ProfileDecision.decline
  else if rs.all (fun r => decide (r.decision = ProfileDecision.approve)) then ProfileDecision.approve
  else ProfileDecision.refer

/-- Modelled from the spec: the Cross-Profile Aggregator (spec section
4.4).  Manual review is needed when the system refers, when profile
results mix approve and decline, or when a recorded manual decision
disagrees with the system decision; the manual record is copied through
unchanged. -/
def aggregate (a : Application) (rs : List ProfileDecisionResult) : ApplicationDecisionResult :=
  let final := finalSystemDecision rs
  let manual := manualDecisionOf a
  let disagree :=
    rs.any (fun r => decide (r.decision = ProfileDecision.approve)) &&
    rs.any (fun r => decide (r.decision = ProfileDecision.decline))
  let manualDiff :=
    match manual with
    | some m => decide (decisionOfOutcome m ≠ final)
    | none => false
  { application_id := a.application_id
    manual_decision_source := some a.decision_source
    manual_final_decision := manual
    manual_decline_reasons := a.manual_decline_reasons
    profile_results := rs
    final_system_decision := final
    needs_manual_review := decide (final = ProfileDecision.refer) || disagree || manualDiff
    aggregated_decline_reason_codes :=
      ((rs.map (fun r => r.decline_reason_codes)).flatten).eraseDups }

/-- Modelled from the spec: one unit of work of the Batch Runner — run
every selected profile over one application and aggregate. -/
def decideApp (profiles : List DecisionProfile) (a : Application) : ApplicationDecisionResult :=
  aggregate a (profiles.map (fun p => scoreProfile p a.attrs))

/-- Modelled from the spec: the Batch Runner (spec section 4.5) — one
result per application, in input order, applications independent. -/
def runBatch (apps : List Application) (profiles : List DecisionProfile) :
    List ApplicationDecisionResult :=
  apps.map (fun a => decideApp profiles a)

/-- Models a parallel run of the Batch Runner: the independent units of
work (one per application index) complete in an arbitrary order given by
the schedule, and the completed results are assembled back into input
order by application index (spec section 5). -/
def runBatchSched (apps : List Application) (profiles : List DecisionProfile)
    (sched : List Nat) : List ApplicationDecisionResult :=
  (List.range apps.length).filterMap (fun i =>
    List.lookup i (sched.filterMap (fun j =>
      match apps[j]? with
      | some a => some (j, decideApp profiles a)
      | none => none)))

/-- A placeholder application used only as the default of list indexing
in proofs. -/
def defaultApp : Application :=
  { application_id := ""
    attrs := []
    decision_source := DecisionSource.auto
    final_decision := none
    manual_decline_reasons := [] }

/-- A JSON value as parsed from the load textarea: null (also covering
an absent field), a string, a number, or a boolean. -/
inductive JVal
| jnull
| jstr (s : String)
| jnum (q : Rat)
| jbool (b : Bool)
deriving DecidableEq

/-- From ApplicationsPage.tsx handleLoad: one parsed application with
the fields the validation reads.  Fields of the Application interface
the validation never touches are not part of the model; the client-only
enrichment (sourceType, sourceLabel, batchId) does not change any of
these fields. -/
structure JsonApp where
  application_id : JVal
  credit_score : JVal
  dti_ratio : JVal
  monthly_gross_income : JVal
  monthly_debt_payments : JVal
  decision_source : JVal
  final_decision : JVal
deriving DecidableEq

/-- JavaScript truthiness of a JSON value. -/
def jTruthy : JVal → Bool
| JVal.jnull => false
| JVal.jstr s => decide (s ≠ "")
| JVal.jnum q => decide (q ≠ 0)
| JVal.jbool b => b

/-- JavaScript numeric coercion of a JSON value; none stands for NaN.
Strings are modelled as coercing to NaN (parsing of numeric strings is
not modelled); null coerces to 0. -/
def jToNumber : JVal → Option Rat
| JVal.jnull => some 0
| JVal.jstr _ => none
| JVal.jnum q => some q
| JVal.jbool b => some (if b then 1 else 0)

/-- The per-entity validation failures handleLoad reports; each carries
the index of the offending application, mirroring the App-idx prefix of
the pushed message. -/
inductive ValErrorKind
| idMissing
| idDuplicate
| creditScoreNotNumber
| creditScoreOutOfRange
| dtiNotNumber
| dtiOutOfRange
| dtiInconsistent
| decisionSourceMissing
| decisionSourceInvalid
| finalDecisionInvalid
deriving DecidableEq

/-- One validation error: the index of the entity plus the failed check. -/
structure ValError where
  idx : Nat
  kind : ValErrorKind
deriving DecidableEq

/-- From ApplicationsPage.tsx handleLoad: the application_id check.
The id must be a truthy string; a falsy or non-string value fails, and
an id already seen in this batch is a duplicate. -/
def idError (seen : List String) (v : JVal) : Option ValErrorKind :=
  match v with
  | JVal.jstr s =>
      if s = "" then some ValErrorKind.idMissing
      else if seen.contains s then some ValErrorKind.idDuplicate
      else none
  | _ => some ValErrorKind.idMissing

/-- From ApplicationsPage.tsx handleLoad: the credit_score check
(must be a number, within 300 to 900). -/
def creditScoreErrors (v : JVal) : List ValErrorKind :=
  match v with
  | JVal.jnum q =>
      if q < 300 ∨ 900 < q then [ValErrorKind.creditScoreOutOfRange] else []
  | _ => [ValErrorKind.creditScoreNotNumber]

/-- From ApplicationsPage.tsx handleLoad: the dti_ratio check
(must be a number, within 0 to 1.5). -/
def dtiErrors (v : JVal) : List ValErrorKind :=
  match v with
  | JVal.jnum q =>
      if q < 0 ∨ mkRat 3 2 < q then [ValErrorKind.dtiOutOfRange] else []
  | _ => [ValErrorKind.dtiNotNumber]

/-- From ApplicationsPage.tsx handleLoad: the income consistency check.
When income and debt are truthy and income coerces positive, the implied
DTI is compared with the declared one; a gap above 0.2 is an error, and
any NaN in the arithmetic makes the comparison false. -/
def dtiConsistencyErrors (a : JsonApp) : List ValErrorKind :=
  if jTruthy (JsonApp.monthly_gross_income a) &&
     jTruthy (JsonApp.monthly_debt_payments a) &&
     (match jToNumber (JsonApp.monthly_gross_income a) with
      | some i => decide (0 < i)
      | none => false) then
    match jToNumber (JsonApp.monthly_gross_income a),
          jToNumber (JsonApp.monthly_debt_payments a),
          jToNumber ( JsonApp.dti_ratio a) with
    | some i, some d, some t =>
        if mkRat 1 5 < |d / i - t| then [ValErrorKind.dtiInconsistent] else []
    | _, _, _ => []
  else []

/-- From ApplicationsPage.tsx handleLoad: the decision_source check
(must be present and one of manual or auto). -/
def decisionSourceErrors (v : JVal) : List ValErrorKind :=
  if jTruthy v then
    if v = JVal.jstr "manual" ∨ v = JVal.jstr "auto" then []
    else [ValErrorKind.decisionSourceInvalid]
  else [ValErrorKind.decisionSourceMissing]

/-- From ApplicationsPage.tsx handleLoad: the final_decision check
(null is allowed for undecisioned; otherwise approve or decline). -/
def finalDecisionErrors (v : JVal) : List ValErrorKind :=
  match v with
  | JVal.jnull => []
  | JVal.jstr "approve" => []
  | JVal.jstr "decline" => []
  | _ => [ValErrorKind.finalDecisionInvalid]

/-- From ApplicationsPage.tsx handleLoad: all checks for one parsed
application, in push order. -/
def validateApp (seen : List String) (idx : Nat) (a : JsonApp) : List ValError :=
  ((match idError seen (JsonApp.application_id a) with
    | some k => [k]
    | none => []) ++
   creditScoreErrors (JsonApp.credit_score a) ++
   dtiErrors ( JsonApp.dti_ratio a) ++
   dtiConsistencyErrors a ++
   decisionSourceErrors (JsonApp.decision_source a) ++
   finalDecisionErrors (JsonApp.final_decision a)).map (fun k => ValError.mk idx k)

/-- From ApplicationsPage.tsx handleLoad: the validation loop; an id is
added to the seen set only when its own check passed. -/
def validateFrom (seen : List String) (idx : Nat) : List JsonApp → List ValError
| [] => []
| a :: rest =>
    let es := validateApp seen idx a
    let seenNext :=
      match JsonApp.application_id a with
      | JVal.jstr s =>
          if s = "" ∨ seen.contains s then seen else s :: seen
      | _ => seen
    es ++ validateFrom seenNext (idx + 1) rest

/-- From ApplicationsPage.tsx handleLoad: validation over the batch. -/
def validateBatch (cand : List JsonApp) : List ValError :=
  validateFrom [] 0 cand

/-- The load mode radio of ApplicationsPage.tsx. -/
inductive LoadMode
| append
| replace
deriving DecidableEq

/-- The outcome of handleLoad: either the collected validation errors
(nothing is loaded), or the new application list. -/
inductive LoadOutcome
| failed (errors : List ValError)
| loaded (apps : List JsonApp)
deriving DecidableEq

/-- From ApplicationsPage.tsx handleLoad: validate the parsed batch; on
any error, report and load nothing.  Otherwise replace the loaded
applications, or append the incoming ones whose application_id is not
already loaded. -/
def handleLoad (mode : LoadMode) (current : List JsonApp) (cand : List JsonApp) :
    LoadOutcome :=
  let errors := validateBatch cand
  if errors.isEmpty then
    match mode with
    | LoadMode.replace => LoadOutcome.loaded cand
    | LoadMode.append =>
        let combinedIds := current.map (fun a => JsonApp.application_id a)
        LoadOutcome.loaded
          (current ++ cand.filter (fun a => ! combinedIds.contains (JsonApp.application_id a)))
  else LoadOutcome.failed errors

/-- From DecisionResultsViewer.tsx: the statistics record. -/
structure RunStats where
  totalApps : Nat
  totalWithManual : Nat
  matchCount : Nat
  falseApprovals : Nat
  falseDeclines : Nat
  autoDecisionCount : Nat
deriving DecidableEq

/-- From DecisionResultsViewer.tsx: one iteration of the stats loop. -/
def statsStep (s : RunStats) (r : ApplicationDecisionResult) : RunStats :=
  let s1 :=
    if r.final_system_decision ≠ ProfileDecision.refer then
      { s with autoDecisionCount := s.autoDecisionCount + 1 }
    else s
  match r.manual_final_decision with
  | none => s1
  | some m =>
      let s2 := { s1 with totalWithManual := s1.totalWithManual + 1 }
      match m, r.final_system_decision with
      | DecisionOutcome.approve, ProfileDecision.approve =>
          { s2 with matchCount := s2.matchCount + 1 }
      | DecisionOutcome.decline, ProfileDecision.decline =>
          { s2 with matchCount := s2.matchCount + 1 }
      | DecisionOutcome.decline, ProfileDecision.approve =>
          { s2 with falseApprovals := s2.falseApprovals + 1 }
      | DecisionOutcome.approve, ProfileDecision.decline =>
          { s2 with falseDeclines := s2.falseDeclines + 1 }
      | _, ProfileDecision.refer => s2

/-- From DecisionResultsViewer.tsx: the stats over a saved run's
results. -/
def computeStats (results : List ApplicationDecisionResult) : RunStats :=
  results.foldl statsStep
    { totalApps := results.length
      totalWithManual := 0
      matchCount := 0
      falseApprovals := 0
      falseDeclines := 0
      autoDecisionCount := 0 }

/-- From DecisionResultsViewer.tsx: the auto-decision rate, computed
when at least one result exists. -/
def autoDecisionRateOf (s : RunStats) : Option Rat :=
  if 0 < s.totalApps then some ((s.autoDecisionCount : Rat) / (s.totalApps : Rat)) else none

/- Concrete inputs used by the witness and counterexample theorems. -/

/-- A sample attribute set: a strong applicant with one 90-day late. -/
def wAttrs : AttrSet :=
  [("credit_score", AttrValue.num 820), ("num_90d_late_last_24m", AttrValue.num 1)]

/-- A sample positive rule: credit_score at least 800. -/
def wRuleHi : RuleCandidate :=
  { rule_instance_id := "r-hi"
    rule_type_id := "credit_score_ge"
    name := "high credit score"
    condition := CondExpr.cmp CmpOp.ge (Operand.field "credit_score") (Operand.numLit 800)
    target_decision_hint := some DecisionOutcome.approve
    suggested_base_score := 50
    suggested_weight := 50
    suggested_hard_decline := false
    support_count := 10
    confidence := 1
    aligned_decline_reason_codes := [] }

/-- The positive rule configured into a profile. -/
def wCfgHi : ProfileRuleConfig :=
  { rule := wRuleHi, weight_override := 50, hard_decline := false, active := true }

/-- A sample hard-decline rule: at least one 90-day late. -/
def wRuleLate : RuleCandidate :=
  { rule_instance_id := "r-late"
    rule_type_id := "late90_ge"
    name := "recent 90 day late"
    condition := CondExpr.cmp CmpOp.ge (Operand.field "num_90d_late_last_24m") (Operand.numLit 1)
    target_decision_hint := some DecisionOutcome.decline
    suggested_base_score := -40
    suggested_weight := -40
    suggested_hard_decline := true
    support_count := 7
    confidence := 1
    aligned_decline_reason_codes := ["R90"] }

/-- The hard-decline rule configured into a profile. -/
def wCfgLate : ProfileRuleConfig :=
  { rule := wRuleLate, weight_override := -40, hard_decline := true, active := true }

/-- A sample rule whose condition references a non-existent attribute. -/
def wRuleGhost : RuleCandidate :=
  { rule_instance_id := "r-ghost"
    rule_type_id := "ghost"
    name := "unknown attribute"
    condition := CondExpr.cmp CmpOp.ge (Operand.field "no_such_attr") (Operand.numLit 1)
    target_decision_hint := some DecisionOutcome.decline
    suggested_base_score := -10
    suggested_weight := -10
    suggested_hard_decline := true
    support_count := 1
    confidence := 1
    aligned_decline_reason_codes := ["RX"] }

/-- The unknown-attribute rule configured as an active hard decline. -/
def wCfgGhost : ProfileRuleConfig :=
  { rule := wRuleGhost, weight_override := -10, hard_decline := true, active := true }

/-- A profile holding only the positive rule. -/
def wProfileSoft : DecisionProfile :=
  { id := "p-soft", name := "Soft", approval_threshold := 50, rules := [wCfgHi] }

/-- A profile holding the positive rule and the hard-decline rule. -/
def wProfileHard : DecisionProfile :=
  { id := "p-hard", name := "Hard", approval_threshold := 50, rules := [wCfgHi, wCfgLate] }

/-- A degenerate profile with no rules and a threshold of zero. -/
def wProfileEmpty : DecisionProfile :=
  { id := "p-empty", name := "Empty", approval_threshold := 0, rules := [] }

/-- A sample application around the sample attribute set. -/
def wApp1 : Application :=
  { application_id := "A-1"
    attrs := wAttrs
    decision_source := DecisionSource.manual
    final_decision := some DecisionOutcome.approve
    manual_decline_reasons := [] }

/-- A second sample application with a weaker attribute set. -/
def wApp2 : Application :=
  { application_id := "A-2"
    attrs := [("credit_score", AttrValue.num 500), ("num_90d_late_last_24m", AttrValue.num 0)]
    decision_source := DecisionSource.auto
    final_decision := none
    manual_decline_reasons := [] }

/-- A structurally valid parsed application. -/
def wJson1 : JsonApp :=
  { application_id := JVal.jstr "a1"
    credit_score := JVal.jnum 700
    dti_ratio := JVal.jnum (mkRat 3 10)
    monthly_gross_income := JVal.jnull
    monthly_debt_payments := JVal.jnull
    decision_source := JVal.jstr "manual"
    final_decision := JVal.jstr "approve" }

/-- A structurally invalid parsed application: its credit_score is a
string, not a number. -/
def wJsonBad : JsonApp :=
  { application_id := JVal.jstr "a2"
    credit_score := JVal.jstr "x"
    dti_ratio := JVal.jnum (mkRat 3 10)
    monthly_gross_income := JVal.jnull
    monthly_debt_payments := JVal.jnull
    decision_source := JVal.jstr "manual"
    final_decision := JVal.jnull }

/-- A valid parsed application sharing the id of wJson1 but differing in
content. -/
def wJson1Clash : JsonApp :=
  { application_id := JVal.jstr "a1"
    credit_score := JVal.jnum 650
    dti_ratio := JVal.jnum (mkRat 1 2)
    monthly_gross_income := JVal.jnull
    monthly_debt_payments := JVal.jnull
    decision_source := JVal.jstr "auto"
    final_decision := JVal.jnull }

/-- A bare profile result carrying a given decision, for exercising the
aggregator. -/
def wRes (d : ProfileDecision) : ProfileDecisionResult :=
  { profile_id := "p"
    profile_name := "P"
    total_score := 0
    decision := d
    hard_decline_triggered := false
    rule_evaluations := []
    decline_reason_codes := [] }

/-- A valid parsed application with a fresh id. -/
def wJson3 : JsonApp :=
  { application_id := JVal.jstr "a3"
    credit_score := JVal.jnum 800
    dti_ratio := JVal.jnum (mkRat 1 10)
    monthly_gross_income := JVal.jnull
    monthly_debt_payments := JVal.jnull
    decision_source := JVal.jstr "manual"
    final_decision := JVal.jstr "decline" }

/- Helper lemmas shared by the claim theorems. -/

/-- A rule whose condition did not evaluate to true yields the inert
evaluation. -/
lemma evalRule_of_not_tt (cfg : ProfileRuleConfig) (app : AttrSet)
    (h : evalCond app cfg.rule.condition ≠ Tri.tt) :
    evalRule cfg app =
      { rule_id := cfg.rule.rule_instance_id
        fired := false
        rule_score := 0
        decline_reason_codes := [] } := by
  unfold evalRule
  cases hc : evalCond app cfg.rule.condition
  · exact absurd hc h
  · rfl
  · rfl

/-- A non-fired rule contributes score zero. -/
lemma evalRule_score_of_not_fired (cfg : ProfileRuleConfig) (app : AttrSet)
    (h : (evalRule cfg app).fired = false) : (evalRule cfg app).rule_score = 0 := by
  unfold evalRule at h ⊢
  cases hc : evalCond app cfg.rule.condition <;> simp_all

/-- The total score of a profile result, by definition. -/
lemma scoreProfile_total_def (p : DecisionProfile) (app : AttrSet) :
    (scoreProfile p app).total_score =
      (((p.rules.filter (fun cfg => cfg.active)).map (fun cfg => evalRule cfg app)).map
        (fun ev => ev.rule_score)).sum := rfl

/-- The hard-decline flag of a profile result, by definition. -/
lemma scoreProfile_hd_def (p : DecisionProfile) (app : AttrSet) :
    (scoreProfile p app).hard_decline_triggered =
      (p.rules.filter (fun cfg => cfg.active)).any
        (fun cfg => (evalRule cfg app).fired && cfg.hard_decline) := rfl

/-- The rule evaluations of a profile result, by definition. -/
lemma scoreProfile_evals_def (p : DecisionProfile) (app : AttrSet) :
    (scoreProfile p app).rule_evaluations =
      (p.rules.filter (fun cfg => cfg.active)).map (fun cfg => evalRule cfg app) := rfl

/-- The decision of a profile result, by definition. -/
lemma scoreProfile_decision_def (p : DecisionProfile) (app : AttrSet) :
    (scoreProfile p app).decision =
      (if (p.rules.filter (fun cfg => cfg.active)).isEmpty then ProfileDecision.refer
       else if (p.rules.filter (fun cfg => cfg.active)).any
           (fun cfg => (evalRule cfg app).fired && cfg.hard_decline) then
         ProfileDecision.decline
       else if p.approval_threshold ≤ (scoreProfile p app).total_score then
         ProfileDecision.approve
       else ProfileDecision.refer) := rfl

/-- Non-fired rules contribute zero, so summing over every rule equals
summing over the fired ones. -/
lemma sum_scores_filter_fired (app : AttrSet) :
    ∀ l : List ProfileRuleConfig,
      ((l.map (fun cfg => evalRule cfg app)).map (fun ev => ev.rule_score)).sum =
        ((l.filter (fun cfg => (evalRule cfg app).fired)).map
          (fun cfg => (evalRule cfg app).rule_score)).sum := by
  intro l
  induction l with
  | nil => rfl
  | cons c tl ih =>
      simp only [List.map_map] at ih
      by_cases hf : (evalRule c app).fired = true
      · simp [List.filter_cons, hf, ih]
      · have hf' : (evalRule c app).fired = false := by
          simpa using hf
        have h0 : (evalRule c app).rule_score = 0 :=
          evalRule_score_of_not_fired c app hf'
        simp [List.filter_cons, hf', h0, ih]

/-- Claim C1 (amended): over a profile with a non-empty active rule set
where no fired active rule is hard-decline, the total score is the sum
of rule_score over the fired active rules, the decision is approve at
or above the approval threshold (inclusive) and refer below it, and the
score alone never yields decline. -/
theorem claim_C1_score_threshold (p : DecisionProfile) (app : AttrSet)
    (hne : p.rules.filter (fun cfg => cfg.active) ≠ [])
    (hnohd : ∀ cfg ∈ p.rules, cfg.active = true → (evalRule cfg app).fired = true →
      cfg.hard_decline = false) :
    (scoreProfile p app).total_score =
      ((p.rules.filter (fun cfg => cfg.active && (evalRule cfg app).fired)).map
        (fun cfg => (evalRule cfg app).rule_score)).sum ∧
    (scoreProfile p app).decision =
      (if p.approval_threshold ≤ (scoreProfile p app).total_score then ProfileDecision.approve
       else ProfileDecision.refer) ∧
    (scoreProfile p app).decision ≠ ProfileDecision.decline := by
  have htot : (scoreProfile p app).total_score =
      ((p.rules.filter (fun cfg => cfg.active && (evalRule cfg app).fired)).map
        (fun cfg => (evalRule cfg app).rule_score)).sum := by
    rw [scoreProfile_total_def, sum_scores_filter_fired, List.filter_filter]
    congr 1
    exact congrArg (List.map fun cfg => (evalRule cfg app).rule_score)
      (List.filter_congr (fun x _ => Bool.and_comm _ _))
  have hhd : (p.rules.filter (fun cfg => cfg.active)).any
      (fun cfg => (evalRule cfg app).fired && cfg.hard_decline) = false := by
    rw [List.any_eq_false]
    intro c hc
    obtain ⟨hin, hact⟩ := List.mem_filter.1 hc
    by_cases hf : (evalRule c app).fired = true
    · simp [hf, hnohd c hin hact hf]
    · have hf' : (evalRule c app).fired = false := by simpa using hf
      simp [hf']
  have hemp : (p.rules.filter (fun cfg => cfg.active)).isEmpty = false := by
    simpa [List.isEmpty_iff] using hne
  have hdec : (scoreProfile p app).decision =
      (if p.approval_threshold ≤ (scoreProfile p app).total_score then ProfileDecision.approve
       else ProfileDecision.refer) := by
    rw [scoreProfile_decision_def, hemp, hhd]
    simp
  refine ⟨htot, hdec, ?_⟩
  rw [hdec]
  by_cases hth : p.approval_threshold ≤ (scoreProfile p app).total_score
  · simp [hth]
  · simp [hth]

/-- Witness for claim C1 at the soft profile and strong applicant. -/
theorem claim_C1_score_threshold_witness :
    (wProfileSoft.rules.filter (fun cfg => cfg.active) ≠ []) ∧
    (∀ cfg ∈ wProfileSoft.rules, cfg.active = true → (evalRule cfg wAttrs).fired = true →
      cfg.hard_decline = false) ∧
    ((scoreProfile wProfileSoft wAttrs).total_score =
      ((wProfileSoft.rules.filter (fun cfg => cfg.active && (evalRule cfg wAttrs).fired)).map
        (fun cfg => (evalRule cfg wAttrs).rule_score)).sum ∧
     (scoreProfile wProfileSoft wAttrs).decision =
      (if wProfileSoft.approval_threshold ≤ (scoreProfile wProfileSoft wAttrs).total_score then
        ProfileDecision.approve
       else ProfileDecision.refer) ∧
     (scoreProfile wProfileSoft wAttrs).decision ≠ ProfileDecision.decline) :=
  ⟨by decide, by decide,
   claim_C1_score_threshold wProfileSoft wAttrs (by decide) (by decide)⟩

/-- Counterexample to claim C1 as stated: on a profile with an empty
rule set and approval threshold zero, no fired rule is hard-decline and
the total score of zero meets the threshold, yet the engine refers (the
spec's degenerate-profile rule) instead of approving as the claim
universally demands. -/
theorem claim_C1_counterexample :
    (scoreProfile wProfileEmpty wAttrs).hard_decline_triggered = false ∧
    (scoreProfile wProfileEmpty wAttrs).total_score = 0 ∧
    wProfileEmpty.approval_threshold ≤ (scoreProfile wProfileEmpty wAttrs).total_score ∧
    (scoreProfile wProfileEmpty wAttrs).decision = ProfileDecision.refer ∧
    ProfileDecision.refer ≠ ProfileDecision.approve :=
  ⟨rfl, rfl, le_refl 0, rfl, by decide⟩

/-- Claim C2: an active fired rule with the effective hard-decline flag
makes hard_decline_triggered true and the decision decline, regardless
of the accumulated score. -/
theorem claim_C2_hard_decline_veto (p : DecisionProfile) (app : AttrSet)
    (h : ∃ cfg ∈ p.rules, cfg.active = true ∧ (evalRule cfg app).fired = true ∧
      cfg.hard_decline = true) :
    (scoreProfile p app).hard_decline_triggered = true ∧
    (scoreProfile p app).decision = ProfileDecision.decline := by
  obtain ⟨cfg, hmem, hact, hf, hhd⟩ := h
  have hmf : cfg ∈ p.rules.filter (fun c => c.active) :=
    List.mem_filter.2 ⟨hmem, hact⟩
  have hany : (p.rules.filter (fun c => c.active)).any
      (fun c => (evalRule c app).fired && c.hard_decline) = true :=
    List.any_eq_true.2 ⟨cfg, hmf, by simp [hf, hhd]⟩
  have hemp : (p.rules.filter (fun c => c.active)).isEmpty = false := by
    simpa [List.isEmpty_iff] using List.ne_nil_of_mem hmf
  constructor
  · rw [scoreProfile_hd_def]
    exact hany
  · rw [scoreProfile_decision_def, hemp, hany]
    simp

/-- Witness for claim C2: the hard profile declines the strong applicant
whose score meets the threshold, because the late-payment rule fires. -/
theorem claim_C2_hard_decline_veto_witness :
    (∃ cfg ∈ wProfileHard.rules, cfg.active = true ∧ (evalRule cfg wAttrs).fired = true ∧
      cfg.hard_decline = true) ∧
    ((scoreProfile wProfileHard wAttrs).hard_decline_triggered = true ∧
     (scoreProfile wProfileHard wAttrs).decision = ProfileDecision.decline) :=
  ⟨by decide, claim_C2_hard_decline_veto wProfileHard wAttrs (by decide)⟩

/-- The system decision of an aggregated result, by definition. -/
lemma aggregate_final_def (a : Application) (rs : List ProfileDecisionResult) :
    (aggregate a rs).final_system_decision = finalSystemDecision rs := rfl

/-- Claim C3: over a non-empty result list the aggregator declines when
any profile declines, approves when all approve, and refers otherwise. -/
theorem claim_C3_aggregation_union (a : Application) (rs : List ProfileDecisionResult)
    (hne : rs ≠ []) :
    ((∃ r ∈ rs, r.decision = ProfileDecision.decline) →
      (aggregate a rs).final_system_decision = ProfileDecision.decline) ∧
    ((∀ r ∈ rs, r.decision = ProfileDecision.approve) →
      (aggregate a rs).final_system_decision = ProfileDecision.approve) ∧
    ((∀ r ∈ rs, r.decision ≠ ProfileDecision.decline) →
      (∃ r ∈ rs, r.decision ≠ ProfileDecision.approve) →
      (aggregate a rs).final_system_decision = ProfileDecision.refer) := by
  rw [aggregate_final_def]
  unfold finalSystemDecision
  refine ⟨?_, ?_, ?_⟩
  · rintro ⟨r, hr, hd⟩
    have hany : rs.any (fun r => decide (r.decision = ProfileDecision.decline)) = true :=
      List.any_eq_true.2 ⟨r, hr, by simp [hd]⟩
    simp [hany]
  · intro hall
    have hnod : rs.any (fun r => decide (r.decision = ProfileDecision.decline)) = false := by
      rw [List.any_eq_false]
      intro r hr
      simp [hall r hr]
    have hap : rs.all (fun r => decide (r.decision = ProfileDecision.approve)) = true := by
      rw [List.all_eq_true]
      intro r hr
      simp [hall r hr]
    simp [hnod, hap]
  · rintro hnod ⟨r, hr, hna⟩
    have hnod' : rs.any (fun r => decide (r.decision = ProfileDecision.decline)) = false := by
      rw [List.any_eq_false]
      intro x hx
      simp [hnod x hx]
    have hnap : rs.all (fun r => decide (r.decision = ProfileDecision.approve)) = false := by
      rw [List.all_eq_false]
      exact ⟨r, hr, by simp [hna]⟩
    simp [hnod', hnap]

/-- Witness for claim C3 on the three example result mixes of the
spec's aggregation-union property. -/
theorem claim_C3_aggregation_union_witness :
    ([wRes ProfileDecision.approve, wRes ProfileDecision.decline] ≠
        ([] : List ProfileDecisionResult)) ∧
    (aggregate wApp1 [wRes ProfileDecision.approve, wRes ProfileDecision.decline]
      ).final_system_decision = ProfileDecision.decline ∧
    (aggregate wApp1 [wRes ProfileDecision.approve, wRes ProfileDecision.approve]
      ).final_system_decision = ProfileDecision.approve ∧
    (aggregate wApp1 [wRes ProfileDecision.approve, wRes ProfileDecision.refer]
      ).final_system_decision = ProfileDecision.refer :=
  ⟨by decide,
   (claim_C3_aggregation_union wApp1 _ (by decide)).1 (by decide),
   (claim_C3_aggregation_union wApp1 _ (by decide)).2.1 (by decide),
   (claim_C3_aggregation_union wApp1 _ (by decide)).2.2 (by decide) (by decide)⟩

/-- An operand naming a missing attribute evaluates to none. -/
lemma evalOperand_none_of_missing (app : AttrSet) (n : String)
    (hmiss : lookupAttr app n = none) :
    ∀ o : Operand, Operand.usesField n o = true → evalOperand app o = none := by
  intro o h
  cases o with
  | field m =>
      simp only [Operand.usesField, decide_eq_true_eq] at h
      subst h
      simpa [evalOperand] using hmiss
  | numLit q => simp [Operand.usesField] at h
  | strLit s => simp [Operand.usesField] at h
  | boolLit b => simp [Operand.usesField] at h

/-- A condition referencing a missing attribute faults, whatever else it
contains. -/
lemma evalCond_fault_of_missing (app : AttrSet) (n : String)
    (hmiss : lookupAttr app n = none) :
    ∀ c : CondExpr, CondExpr.usesField n c = true → evalCond app c = Tri.fault := by
  intro c
  induction c with
  | cmp op l r =>
      intro h
      simp only [CondExpr.usesField, Bool.or_eq_true] at h
      rcases h with h | h
      · have hl := evalOperand_none_of_missing app n hmiss l h
        cases hr : evalOperand app r <;> simp [evalCond, hl, hr]
      · have hr := evalOperand_none_of_missing app n hmiss r h
        cases hl : evalOperand app l <;> simp [evalCond, hl, hr]
  | and a b iha ihb =>
      intro h
      simp only [CondExpr.usesField, Bool.or_eq_true] at h
      rcases h with h | h
      · simp [evalCond, iha h]
      · cases ha : evalCond app a <;> simp [evalCond, ha, ihb h]
  | or a b iha ihb =>
      intro h
      simp only [CondExpr.usesField, Bool.or_eq_true] at h
      rcases h with h | h
      · simp [evalCond, iha h]
      · cases ha : evalCond app a <;> simp [evalCond, ha, ihb h]
  | not a iha =>
      intro h
      simp only [CondExpr.usesField] at h
      simp [evalCond, iha h]

/-- Claim C4: a faulted condition leaves the rule not fired, scoring
zero, carrying no decline codes and unable to trigger a hard decline;
in particular a condition referencing an unknown attribute name always
faults, so such a rule never fires on any application. -/
theorem claim_C4_fail_closed (cfg : ProfileRuleConfig) (app : AttrSet) (n : String)
    (c : CondExpr) :
    (evalCond app cfg.rule.condition = Tri.fault →
      (evalRule cfg app).fired = false ∧
      (evalRule cfg app).rule_score = 0 ∧
      (evalRule cfg app).decline_reason_codes = [] ∧
      ((evalRule cfg app).fired && cfg.hard_decline) = false) ∧
    (CondExpr.usesField n c = true → lookupAttr app n = none →
      evalCond app c = Tri.fault) := by
  constructor
  · intro hf
    have h := evalRule_of_not_tt cfg app (by simp [hf])
    simp [h]
  · intro hu hm
    exact evalCond_fault_of_missing app n hm c hu

/-- Witness for claim C4 on the rule whose condition references the
attribute no_such_attr, absent from the sample attribute set. -/
theorem claim_C4_fail_closed_witness :
    (evalCond wAttrs wCfgGhost.rule.condition = Tri.fault) ∧
    (CondExpr.usesField "no_such_attr" wRuleGhost.condition = true) ∧
    (lookupAttr wAttrs "no_such_attr" = none) ∧
    ((evalRule wCfgGhost wAttrs).fired = false ∧
     (evalRule wCfgGhost wAttrs).rule_score = 0 ∧
     (evalRule wCfgGhost wAttrs).decline_reason_codes = [] ∧
     ((evalRule wCfgGhost wAttrs).fired && wCfgGhost.hard_decline) = false) ∧
    (evalCond wAttrs wRuleGhost.condition = Tri.fault) :=
  ⟨by decide, by decide, by decide,
   (claim_C4_fail_closed wCfgGhost wAttrs "no_such_attr" wRuleGhost.condition).1 (by decide),
   (claim_C4_fail_closed wCfgGhost wAttrs "no_such_attr" wRuleGhost.condition).2
     (by decide) (by decide)⟩

/-- Claim C5: manual review is needed exactly when the system refers,
or the profile results mix approve and decline, or a recorded manual
decision differs from the system decision. -/
theorem claim_C5_needs_review (a : Application) (rs : List ProfileDecisionResult) :
    (aggregate a rs).needs_manual_review = true ↔
      ((aggregate a rs).final_system_decision = ProfileDecision.refer ∨
       ((∃ r ∈ rs, r.decision = ProfileDecision.approve) ∧
        (∃ r ∈ rs, r.decision = ProfileDecision.decline)) ∨
       (∃ m, manualDecisionOf a = some m ∧
         decisionOfOutcome m ≠ (aggregate a rs).final_system_decision)) := by
  have hrev : (aggregate a rs).needs_manual_review =
      (decide (finalSystemDecision rs = ProfileDecision.refer) ||
       (rs.any (fun r => decide (r.decision = ProfileDecision.approve)) &&
        rs.any (fun r => decide (r.decision = ProfileDecision.decline))) ||
       (match manualDecisionOf a with
        | some m => decide (decisionOfOutcome m ≠ finalSystemDecision rs)
        | none => false)) := rfl
  rw [hrev, aggregate_final_def]
  cases hm : manualDecisionOf a
  · simp [List.any_eq_true, Bool.or_eq_true, Bool.and_eq_true, decide_eq_true_eq]
  · simp [List.any_eq_true, Bool.or_eq_true, Bool.and_eq_true, decide_eq_true_eq]
    exact or_assoc

/-- The toggled copy of a rule config is inactive. -/
lemma toggled_inactive (cfg : ProfileRuleConfig) :
    ({ cfg with active := false } : ProfileRuleConfig).active = false := rfl

/-- Claim C6: an inactive rule is excluded from evaluation entirely (the
profile result equals the one of the profile without it), and toggling a
fired non-hard rule inactive lowers the total score by exactly that
rule's rule_score. -/
theorem claim_C6_inactive_excluded (idp nm : String) (th : Rat)
    (pre post : List ProfileRuleConfig) (cfg0 cfg : ProfileRuleConfig) (app : AttrSet) :
    (cfg0.active = false →
      scoreProfile ⟨idp, nm, th, pre ++ cfg0 :: post⟩ app =
        scoreProfile ⟨idp, nm, th, pre ++ post⟩ app) ∧
    (cfg.active = true → (evalRule cfg app).fired = true → cfg.hard_decline = false →
      (scoreProfile ⟨idp, nm, th, pre ++ cfg :: post⟩ app).total_score =
        (scoreProfile ⟨idp, nm, th, pre ++ { cfg with active := false } :: post⟩ app
          ).total_score + (evalRule cfg app).rule_score) := by
  constructor
  · intro h0
    have hfil : (pre ++ cfg0 :: post).filter (fun c => c.active) =
        (pre ++ post).filter (fun c => c.active) := by
      simp [List.filter_append, List.filter_cons, h0]
    simp only [scoreProfile]
    rw [hfil]
  · intro hact hf _
    have hfil1 : (pre ++ cfg :: post).filter (fun c => c.active) =
        pre.filter (fun c => c.active) ++ cfg :: post.filter (fun c => c.active) := by
      simp [List.filter_append, List.filter_cons, hact]
    have hfil2 : (pre ++ { cfg with active := false } :: post).filter (fun c => c.active) =
        pre.filter (fun c => c.active) ++ post.filter (fun c => c.active) := by
      simp [List.filter_append, List.filter_cons]
    rw [scoreProfile_total_def, scoreProfile_total_def]
    simp only [hfil1, hfil2]
    simp [List.map_append, List.sum_append]
    ring

/-- Witness for claim C6: toggling the fired credit-score rule off in
front of the late-payment rule. -/
theorem claim_C6_inactive_excluded_witness :
    (({ wCfgHi with active := false } : ProfileRuleConfig).active = false ∧
     scoreProfile ⟨"p-w", "W", 50, [] ++ { wCfgHi with active := false } :: [wCfgLate]⟩ wAttrs =
       scoreProfile ⟨"p-w", "W", 50, [] ++ [wCfgLate]⟩ wAttrs) ∧
    (wCfgHi.active = true ∧ (evalRule wCfgHi wAttrs).fired = true ∧
     wCfgHi.hard_decline = false ∧
     (scoreProfile ⟨"p-w", "W", 50, [] ++ wCfgHi :: [wCfgLate]⟩ wAttrs).total_score =
       (scoreProfile ⟨"p-w", "W", 50, [] ++ { wCfgHi with active := false } :: [wCfgLate]⟩ wAttrs
         ).total_score + (evalRule wCfgHi wAttrs).rule_score) :=
  ⟨⟨by decide,
    (claim_C6_inactive_excluded "p-w" "W" 50 [] [wCfgLate] { wCfgHi with active := false }
      wCfgHi wAttrs).1 (by decide)⟩,
   ⟨by decide, by decide, by decide,
    (claim_C6_inactive_excluded "p-w" "W" 50 [] [wCfgLate] { wCfgHi with active := false }
      wCfgHi wAttrs).2 (by decide) (by decide) (by decide)⟩⟩

/-- Looking up an in-range index among the completed work units of a
schedule containing it returns that unit's result. -/
lemma lookup_completed (apps : List Application) (profiles : List DecisionProfile) :
    ∀ (sched : List Nat) (i : Nat), i ∈ sched → i < apps.length →
      List.lookup i (sched.filterMap (fun j =>
        match apps[j]? with
        | some a => some (j, decideApp profiles a)
        | none => none)) = (apps[i]?).map (fun a => decideApp profiles a) := by
  intro sched
  induction sched with
  | nil =>
      intro i hi
      exact absurd hi (List.not_mem_nil i)
  | cons j tl ih =>
      intro i hi hilt
      by_cases hij : i = j
      · subst hij
        cases hj : apps[i]? with
        | none =>
            have := List.getElem?_eq_none_iff.1 hj
            omega
        | some a =>
            simp [List.filterMap_cons, hj, List.lookup]
      · have hmem : i ∈ tl := by
          rcases List.mem_cons.1 hi with h | h
          · exact absurd h hij
          · exact h
        have hbeq : (i == j) = false := by
          simp [hij]
        cases hj : apps[j]? with
        | none =>
            simp only [List.filterMap_cons, hj]
            exact ih i hmem hilt
        | some a =>
            simp only [List.filterMap_cons, hj, List.lookup, hbeq]
            exact ih i hmem hilt

/-- A filterMap that always succeeds is a map. -/
lemma filterMap_eq_map_of_some {α β : Type} (F : α → Option β) (G : α → β) :
    ∀ l : List α, (∀ x ∈ l, F x = some (G x)) → l.filterMap F = l.map G := by
  intro l
  induction l with
  | nil => intro _; rfl
  | cons a tl ih =>
      intro h
      simp [List.filterMap_cons, h a (List.mem_cons_self a tl),
        ih (fun x hx => h x (List.mem_cons_of_mem a hx))]

/-- Mapping a function over positional reads of a list is mapping over
the list. -/
lemma map_getD_range {α β : Type} (f : α → β) (d : α) :
    ∀ l : List α, (List.range l.length).map (fun i => f (l.getD i d)) = l.map f := by
  intro l
  induction l with
  | nil => rfl
  | cons a tl ih =>
      simp only [List.length_cons, List.range_succ_eq_map, List.map_cons, List.map_map,
        List.cons.injEq]
      refine ⟨rfl, ?_⟩
      exact ih

/-- Claim C7: a parallel run whose work units complete in any order (any
permutation of the application indices) assembles to exactly the serial
batch result; with a pure engine, identical inputs give identical
outputs whatever the execution order. -/
theorem claim_C7_determinism (apps : List Application) (profiles : List DecisionProfile)
    (sched : List Nat) (hperm : sched.Perm (List.range apps.length)) :
    runBatchSched apps profiles sched = runBatch apps profiles := by
  unfold runBatchSched runBatch
  have hstep : ∀ i ∈ List.range apps.length,
      List.lookup i (sched.filterMap (fun j =>
        match apps[j]? with
        | some a => some (j, decideApp profiles a)
        | none => none)) = some (decideApp profiles (apps.getD i defaultApp)) := by
    intro i hi
    have hilt : i < apps.length := List.mem_range.1 hi
    have hisched : i ∈ sched := hperm.mem_iff.2 hi
    rw [lookup_completed apps profiles sched i hisched hilt,
      List.getElem?_eq_getElem hilt]
    simp [List.getD_eq_getElem?_getD, List.getElem?_eq_getElem hilt]
  rw [filterMap_eq_map_of_some _ (fun i => decideApp profiles (apps.getD i defaultApp))
    (List.range apps.length) hstep]
  exact map_getD_range (fun a => decideApp profiles a) defaultApp apps

/-- Witness for claim C7: two applications processed in reversed order
assemble to the serial result. -/
theorem claim_C7_determinism_witness :
    ([1, 0].Perm (List.range [wApp1, wApp2].length)) ∧
    runBatchSched [wApp1, wApp2] [wProfileSoft] [1, 0] =
      runBatch [wApp1, wApp2] [wProfileSoft] :=
  ⟨by decide, claim_C7_determinism [wApp1, wApp2] [wProfileSoft] [1, 0] (by decide)⟩

/-- Every error the validation loop reports names an entity of the
batch by its index. -/
lemma validateFrom_idx_bound :
    ∀ (l : List JsonApp) (seen : List String) (idx : Nat),
      ∀ e ∈ validateFrom seen idx l, idx ≤ e.idx ∧ e.idx < idx + l.length := by
  intro l
  induction l with
  | nil =>
      intro seen idx e he
      simp [validateFrom] at he
  | cons a tl ih =>
      intro seen idx e he
      simp only [validateFrom, List.mem_append] at he
      rcases he with he | he
      · unfold validateApp at he
        simp only [List.mem_map] at he
        obtain ⟨k, _, rfl⟩ := he
        refine ⟨Nat.le_refl idx, ?_⟩
        simp only [List.length_cons]
        omega
      · have h := ih _ (idx + 1) e he
        simp [List.length_cons]
        omega

/-- A batch that validates cleanly has ids that are non-empty strings,
pairwise distinct, and disjoint from the already-seen set. -/
lemma validateFrom_nil_ids :
    ∀ (l : List JsonApp) (seen : List String) (idx : Nat),
      validateFrom seen idx l = [] →
      ((l.map (fun a => JsonApp.application_id a)).Nodup ∧
       ∀ a ∈ l, ∃ s, JsonApp.application_id a = JVal.jstr s ∧ s ≠ "" ∧
         seen.contains s = false) := by
  intro l
  induction l with
  | nil =>
      intro seen idx _
      exact ⟨List.nodup_nil, by simp⟩
  | cons a tl ih =>
      intro seen idx h
      rw [validateFrom, List.append_eq_nil] at h
      obtain ⟨h1, h2⟩ := h
      have hidnone : idError seen (JsonApp.application_id a) = none := by
        unfold validateApp at h1
        rw [List.map_eq_nil_iff] at h1
        simp only [List.append_eq_nil] at h1
        cases hk : idError seen (JsonApp.application_id a) with
        | none => rfl
        | some k =>
            rw [hk] at h1
            simp at h1
      have hid : ∃ s, JsonApp.application_id a = JVal.jstr s ∧ s ≠ "" ∧
          seen.contains s = false := by
        cases hv : JsonApp.application_id a with
        | jstr s =>
            rw [hv] at hidnone
            unfold idError at hidnone
            by_cases hse : s = ""
            · simp [hse] at hidnone
            · by_cases hsc : seen.contains s = true
              · simp [hse] at hidnone
                exact absurd (show s ∈ seen by simpa using hsc) hidnone
              · exact ⟨s, rfl, hse, by simpa using hsc⟩
        | jnull =>
            rw [hv] at hidnone
            simp [idError] at hidnone
        | jnum q =>
            rw [hv] at hidnone
            simp [idError] at hidnone
        | jbool b =>
            rw [hv] at hidnone
            simp [idError] at hidnone
      obtain ⟨s, hs, hse, hsc⟩ := hid
      have hseen : (match JsonApp.application_id a with
          | JVal.jstr s => if s = "" ∨ seen.contains s then seen else s :: seen
          | _ => seen) = s :: seen := by
        have hmem : s ∉ seen := by simpa using hsc
        rw [hs]
        simp [hse, hmem]
      rw [hseen] at h2
      obtain ⟨hnd, hall⟩ := ih (s :: seen) (idx + 1) h2
      refine ⟨?_, ?_⟩
      · rw [List.map_cons]
        refine List.nodup_cons.2 ⟨?_, hnd⟩
        intro hmem
        obtain ⟨b, hb, hba⟩ := List.mem_map.1 hmem
        obtain ⟨s2, hs2, _, hnc2⟩ := hall b hb
        rw [hs2, hs] at hba
        have hss : s2 = s := by
          simpa using hba
        rw [hss] at hnc2
        simp at hnc2
      · intro b hb
        rcases List.mem_cons.1 hb with rfl | hbtl
        · exact ⟨s, hs, hse, hsc⟩
        · obtain ⟨s2, hs2, hse2, hnc2⟩ := hall b hbtl
          refine ⟨s2, hs2, hse2, ?_⟩
          simp only [List.contains_cons, Bool.or_eq_false_iff] at hnc2
          exact hnc2.2



/-- Counterexample to claim C8 as stated: a batch holding one
structurally valid application (wJson1, which validates cleanly on its
own) and one invalid application is rejected outright with the
per-entity error report — the valid entry is not loaded, so processing
of the remaining valid applications does not continue. -/
theorem claim_C8_counterexample :
    validateBatch [wJson1] = [] ∧
    handleLoad LoadMode.append [] [wJson1, wJsonBad] =
      LoadOutcome.failed [ValError.mk 1 ValErrorKind.creditScoreNotNumber] :=
  ⟨by decide, by decide⟩

/-- Claim C8 (amended): invalid entities are reported individually,
each error naming the index of the offending entity, but one invalid
entry rejects the whole load — nothing is loaded and the existing
application list is left untouched. -/
theorem claim_C8_abort_on_invalid (mode : LoadMode) (current cand : List JsonApp)
    (h : validateBatch cand ≠ []) :
    handleLoad mode current cand = LoadOutcome.failed (validateBatch cand) ∧
    ∀ e ∈ validateBatch cand, e.idx < cand.length := by
  constructor
  · have hie : (validateBatch cand).isEmpty = false := by
      simpa [List.isEmpty_iff] using h
    simp [handleLoad, hie]
  · intro e he
    have hb := validateFrom_idx_bound cand [] 0 e he
    omega

/-- Witness for claim C8 (amended) on the two-entry batch with one
invalid application. -/
theorem claim_C8_abort_on_invalid_witness :
    (validateBatch [wJson1, wJsonBad] ≠ []) ∧
    (handleLoad LoadMode.append [wJson3] [wJson1, wJsonBad] =
       LoadOutcome.failed (validateBatch [wJson1, wJsonBad]) ∧
     ∀ e ∈ validateBatch [wJson1, wJsonBad], e.idx < [wJson1, wJsonBad].length) :=
  ⟨by decide,
   claim_C8_abort_on_invalid LoadMode.append [wJson3] [wJson1, wJsonBad] (by decide)⟩

/-- Claim C9: append-mode loading of a cleanly validated batch keeps
every already-loaded application unchanged in place, adds only incoming
applications whose id is not already loaded, drops incoming clashing
ones, and preserves application_id uniqueness of the loaded set. -/
theorem claim_C9_append_dedup (current cand : List JsonApp)
    (hval : validateBatch cand = [])
    (hnd : (current.map (fun a => JsonApp.application_id a)).Nodup) :
    ∃ added : List JsonApp,
      handleLoad LoadMode.append current cand = LoadOutcome.loaded (current ++ added) ∧
      (∀ b ∈ added, b ∈ cand) ∧
      (∀ b ∈ added,
        JsonApp.application_id b ∉ current.map (fun a => JsonApp.application_id a)) ∧
      (∀ b ∈ cand,
        JsonApp.application_id b ∈ current.map (fun a => JsonApp.application_id a) →
          b ∉ added) ∧
      ((current ++ added).map (fun a => JsonApp.application_id a)).Nodup := by
  refine ⟨cand.filter (fun b =>
    ! (current.map (fun a => JsonApp.application_id a)).contains (JsonApp.application_id b)),
    ?_, ?_, ?_, ?_, ?_⟩
  · simp [handleLoad, hval]
  · intro b hb
    exact (List.mem_filter.1 hb).1
  · intro b hb
    have hp := (List.mem_filter.1 hb).2
    simpa using hp
  · intro b _ hmem hb
    have hp := (List.mem_filter.1 hb).2
    have hnb : JsonApp.application_id b ∉
        current.map (fun a => JsonApp.application_id a) := by
      simpa using hp
    exact hnb hmem
  · rw [List.map_append, List.nodup_append]
    have hcand := (validateFrom_nil_ids cand [] 0 hval).1
    refine ⟨hnd, ?_, ?_⟩
    · exact hcand.sublist (List.Sublist.map _ (List.filter_sublist cand))
    · intro x hx hx2
      obtain ⟨b, hb, rfl⟩ := List.mem_map.1 hx2
      have hp := (List.mem_filter.1 hb).2
      have hnb : JsonApp.application_id b ∉
          current.map (fun a => JsonApp.application_id a) := by
        simpa using hp
      exact hnb hx

/-- Witness for claim C9: appending a batch holding a clashing id (a1)
and a fresh id (a3) to a loaded list holding a1. -/
theorem claim_C9_append_dedup_witness :
    (validateBatch [wJson1Clash, wJson3] = []) ∧
    (([wJson1].map (fun a => JsonApp.application_id a)).Nodup) ∧
    (∃ added : List JsonApp,
      handleLoad LoadMode.append [wJson1] [wJson1Clash, wJson3] =
        LoadOutcome.loaded ([wJson1] ++ added) ∧
      (∀ b ∈ added, b ∈ [wJson1Clash, wJson3]) ∧
      (∀ b ∈ added,
        JsonApp.application_id b ∉ [wJson1].map (fun a => JsonApp.application_id a)) ∧
      (∀ b ∈ [wJson1Clash, wJson3],
        JsonApp.application_id b ∈ [wJson1].map (fun a => JsonApp.application_id a) →
          b ∉ added) ∧
      (([wJson1] ++ added).map (fun a => JsonApp.application_id a)).Nodup) :=
  ⟨by decide, by decide,
   claim_C9_append_dedup [wJson1] [wJson1Clash, wJson3] (by decide) (by decide)⟩

/-- How one stats-loop step moves each counter. -/
lemma statsStep_fields (s : RunStats) (r : ApplicationDecisionResult) :
    (statsStep s r).totalApps = s.totalApps ∧
    (statsStep s r).totalWithManual =
      s.totalWithManual + (if r.manual_final_decision.isSome then 1 else 0) ∧
    (statsStep s r).matchCount =
      s.matchCount +
        (if (decide (r.manual_final_decision = some DecisionOutcome.approve ∧
              r.final_system_decision = ProfileDecision.approve) ||
             decide (r.manual_final_decision = some DecisionOutcome.decline ∧
              r.final_system_decision = ProfileDecision.decline)) then 1 else 0) ∧
    (statsStep s r).falseApprovals =
      s.falseApprovals +
        (if decide (r.manual_final_decision = some DecisionOutcome.decline ∧
            r.final_system_decision = ProfileDecision.approve) then 1 else 0) ∧
    (statsStep s r).falseDeclines =
      s.falseDeclines +
        (if decide (r.manual_final_decision = some DecisionOutcome.approve ∧
            r.final_system_decision = ProfileDecision.decline) then 1 else 0) ∧
    (statsStep s r).autoDecisionCount =
      s.autoDecisionCount +
        (if decide (r.final_system_decision ≠ ProfileDecision.refer) then 1 else 0) := by
  unfold statsStep
  cases hm : r.manual_final_decision with
  | none =>
      cases hs : r.final_system_decision <;> simp [hm, hs]
  | some m =>
      cases m <;> cases hs : r.final_system_decision <;> simp [hm, hs]

/-- Folding the stats loop adds the per-predicate counts to the
accumulator. -/
lemma statsFold_counts :
    ∀ (results : List ApplicationDecisionResult) (acc : RunStats),
      (results.foldl statsStep acc).totalApps = acc.totalApps ∧
      (results.foldl statsStep acc).totalWithManual =
        acc.totalWithManual + results.countP (fun r => r.manual_final_decision.isSome) ∧
      (results.foldl statsStep acc).matchCount =
        acc.matchCount + results.countP (fun r =>
          decide (r.manual_final_decision = some DecisionOutcome.approve ∧
            r.final_system_decision = ProfileDecision.approve) ||
          decide (r.manual_final_decision = some DecisionOutcome.decline ∧
            r.final_system_decision = ProfileDecision.decline)) ∧
      (results.foldl statsStep acc).falseApprovals =
        acc.falseApprovals + results.countP (fun r =>
          decide (r.manual_final_decision = some DecisionOutcome.decline ∧
            r.final_system_decision = ProfileDecision.approve)) ∧
      (results.foldl statsStep acc).falseDeclines =
        acc.falseDeclines + results.countP (fun r =>
          decide (r.manual_final_decision = some DecisionOutcome.approve ∧
            r.final_system_decision = ProfileDecision.decline)) ∧
      (results.foldl statsStep acc).autoDecisionCount =
        acc.autoDecisionCount + results.countP (fun r =>
          decide (r.final_system_decision ≠ ProfileDecision.refer)) := by
  intro results
  induction results with
  | nil => intro acc; simp
  | cons r tl ih =>
      intro acc
      obtain ⟨f1, f2, f3, f4, f5, f6⟩ := statsStep_fields acc r
      obtain ⟨g1, g2, g3, g4, g5, g6⟩ := ih (statsStep acc r)
      simp only [List.foldl_cons, List.countP_cons]
      refine ⟨?_, ?_, ?_, ?_, ?_, ?_⟩
      · rw [g1, f1]
      · rw [g2, f2]
        by_cases hp : r.manual_final_decision.isSome <;> simp [hp] <;> omega
      · rw [g3, f3]
        by_cases hp : (decide (r.manual_final_decision = some DecisionOutcome.approve ∧
            r.final_system_decision = ProfileDecision.approve) ||
          decide (r.manual_final_decision = some DecisionOutcome.decline ∧
            r.final_system_decision = ProfileDecision.decline)) = true <;>
          simp [hp] <;> omega
      · rw [g4, f4]
        by_cases hp : decide (r.manual_final_decision = some DecisionOutcome.decline ∧
            r.final_system_decision = ProfileDecision.approve) = true <;>
          simp [hp] <;> omega
      · rw [g5, f5]
        by_cases hp : decide (r.manual_final_decision = some DecisionOutcome.approve ∧
            r.final_system_decision = ProfileDecision.decline) = true <;>
          simp [hp] <;> omega
      · rw [g6, f6]
        by_cases hp : decide (r.final_system_decision ≠ ProfileDecision.refer) = true <;>
          simp [hp] <;> omega

/-- Claim C10: in the decision-results statistics, a result with a
manual decision counts as a match exactly when manual and system agree
on approve or on decline, as a false approval exactly when the manual
decline met a system approve, and as a false decline exactly when the
manual approve met a system decline; a result whose system decision is
refer enters the with-manual denominator but none of the three
categories, and the auto-decision rate is the fraction of results not
refered. -/
theorem claim_C10_stats (results : List ApplicationDecisionResult) :
    (computeStats results).totalApps = results.length ∧
    (computeStats results).totalWithManual =
      results.countP (fun r => r.manual_final_decision.isSome) ∧
    (computeStats results).matchCount =
      results.countP (fun r =>
        decide (r.manual_final_decision = some DecisionOutcome.approve ∧
          r.final_system_decision = ProfileDecision.approve) ||
        decide (r.manual_final_decision = some DecisionOutcome.decline ∧
          r.final_system_decision = ProfileDecision.decline)) ∧
    (computeStats results).falseApprovals =
      results.countP (fun r =>
        decide (r.manual_final_decision = some DecisionOutcome.decline ∧
          r.final_system_decision = ProfileDecision.approve)) ∧
    (computeStats results).falseDeclines =
      results.countP (fun r =>
        decide (r.manual_final_decision = some DecisionOutcome.approve ∧
          r.final_system_decision = ProfileDecision.decline)) ∧
    (computeStats results).autoDecisionCount =
      results.countP (fun r => decide (r.final_system_decision ≠ ProfileDecision.refer)) ∧
    autoDecisionRateOf (computeStats results) =
      (if 0 < results.length then
        some ((results.countP (fun r =>
          decide (r.final_system_decision ≠ ProfileDecision.refer)) : Rat) /
            (results.length : Rat))
       else none) := by
  obtain ⟨h1, h2, h3, h4, h5, h6⟩ := statsFold_counts results
    { totalApps := results.length
      totalWithManual := 0
      matchCount := 0
      falseApprovals := 0
      falseDeclines := 0
      autoDecisionCount := 0 }
  have e1 : (computeStats results).totalApps = results.length := by
    rw [computeStats, h1]
  have e6 : (computeStats results).autoDecisionCount =
      results.countP (fun r => decide (r.final_system_decision ≠ ProfileDecision.refer)) := by
    rw [computeStats, h6]
    simp
  refine ⟨e1, ?_, ?_, ?_, ?_, e6, ?_⟩
  · rw [computeStats, h2]
    simp
  · rw [computeStats, h3]
    simp
  · rw [computeStats, h4]
    simp
  · rw [computeStats, h5]
    simp
  · rw [autoDecisionRateOf, e1, e6]

end Loan
